import Mathlib

/-!
Verification of the Upload Coordinator of `src/frontend/src/components/UploadArea.tsx`
(rag-demo-pgsql). The component's upload logic is shallowly embedded: the React
state updates (`setStatus`, `setUploadedDocId`) are recorded as an explicit trace,
the network is an oracle mapping each chunk index to the server's response, and
the WebSocket `onmessage` handler is a pure transition on the status record.
-/

namespace UploadArea

/-- The `status` field of the component's `UploadStatus` record:
`'idle' | 'uploading' | 'assembling' | 'completed' | 'error'`. -/
inductive St : Type
  | idle
  | uploading
  | assembling
  | completed
  | error
deriving DecidableEq, Repr

/-- `interface UploadStatus { progress: number; status: ...; message?: string }`. -/
structure UploadStatus : Type where
  progress : Nat
  status : St
  message : Option String
deriving DecidableEq, Repr

/-- `const CHUNK_SIZE = 5 * 1024 * 1024; // 5MB` -/
def CHUNK_SIZE : Nat := 5 * 1024 * 1024

/-- A selected file: its byte size (`file.size`) and name (`file.name`). -/
structure File : Type where
  size : Nat
  name : String
deriving DecidableEq, Repr

/-- Result of one `axios.post` transfer call. `ok d` is a 2xx response whose
body carries the document identifier `d` (for the whole-file endpoint the field
`id`, for the chunked endpoint `document_id`); `d = ""` models an absent or
empty identifier, both falsy in `res.data.document_id || documentId`.
`err detail` is a failed call; `detail = ""` models an absent
`err?.response?.data?.detail`, falsy in `detail || 'Upload failed.'`. -/
inductive TransferResult : Type
  | ok (document_id : String)
  | err (detail : String)
deriving DecidableEq, Repr

/-- One request to `POST /api/v1/documents/upload-chunked`: the byte range
`[start, stop)` of `file.slice(start, end)` plus the multipart form fields. -/
structure ChunkRequest : Type where
  start : Nat
  stop : Nat
  document_id : String
  chunk_index : Nat
  total_chunks : Nat
  filename : String
  client_id : Option String
deriving DecidableEq, Repr

/-- A network request issued by `handleUpload`: either the single
`POST /api/v1/documents/upload` whole-file call or one chunked call. -/
inductive Request : Type
  | whole (client_id : String)
  | chunk (c : ChunkRequest)
deriving DecidableEq, Repr

/-- The observable outcome of one `handleUpload()` run: every request issued
in order, every `setStatus` argument in order, and the final value passed to
`setUploadedDocId` (`none` when it is never called in the run). -/
structure RunResult : Type where
  requests : List Request
  statuses : List UploadStatus
  uploadedDocId : Option String
deriving DecidableEq, Repr

/-- `Math.round(((i + 1) / totalChunks) * 100)` for nonnegative arguments:
round-half-up of `100 * num / den`, computed exactly over rationals as
`⌊(100 * num) / den + 1 / 2⌋`. -/
def jsRound100 (num den : Nat) : Nat :=
  (200 * num + den) / (2 * den)

/-- `Math.ceil(file.size / CHUNK_SIZE)` with a general chunk size:
ceiling division. -/
def totalChunksOf (size chunkSize : Nat) : Nat :=
  (size + chunkSize - 1) / chunkSize

/-- The chunk splitting of lines 75-80: for `i = 0 .. totalChunks-1`,
`start = i * CHUNK_SIZE`, `end = Math.min(start + CHUNK_SIZE, file.size)`,
as a pure function of the total size and the chunk size alone. -/
def split (totalSize chunkSize : Nat) : List (Nat × Nat) :=
  (List.range (totalChunksOf totalSize chunkSize)).map
    (fun i => (i * chunkSize, min (i * chunkSize + chunkSize) totalSize))

/-- `err?.response?.data?.detail || 'Chunk upload failed.'`-style fallback. -/
def detailOr (detail fallback : String) : String :=
  if detail = "" then fallback else detail

/-- The `for` loop of lines 77-102, recursing on the number of remaining
iterations (`fuel = totalChunks - i`). Each iteration builds the chunk request
of lines 78-88, consults the oracle for the `axios.post` outcome, and on
success performs line 93's `documentId = res.data.document_id || documentId`
and the `setStatus` calls of lines 94-97; on failure it performs line 99's
`setStatus` and `break`s (line 100). Returns the issued requests, the emitted
statuses, and the final value of the `documentId` variable. -/
def chunkLoop (size : Nat) (name clientId : String) (total : Nat)
    (oracle : Nat → TransferResult) :
    Nat → Nat → String → List Request × List UploadStatus × String
  | 0, _, documentId => ([], [], documentId)
  | fuel + 1, i, documentId =>
    let start := i * CHUNK_SIZE
    let stop := min (start + CHUNK_SIZE) size
    let req : ChunkRequest :=
      { start := start
        stop := stop
        document_id := if documentId = "" then "new" else documentId
        chunk_index := i
        total_chunks := total
        filename := name
        client_id := if i = 0 then some clientId else none }
    match oracle i with
    | .ok d =>
      let documentId' := if d = "" then documentId else d
      let stOk : UploadStatus :=
        { progress := jsRound100 (i + 1) total
          status := .uploading
          message := some s!"Chunk {i + 1} uploaded" }
      let stAsm : List UploadStatus :=
        if i = total - 1 then
          [{ progress := 100, status := .assembling
             message := some "Assembling and processing..." }]
        else []
      let rest := chunkLoop size name clientId total oracle fuel (i + 1) documentId'
      (.chunk req :: rest.1, stOk :: stAsm ++ rest.2.1, rest.2.2)
    | .err detail =>
      ([.chunk req],
       [{ progress := jsRound100 (i + 1) total
          status := .error
          message := some (detailOr detail "Chunk upload failed.") }],
       documentId)

/-- Line 56's initial `setStatus({ progress: 0, status: 'uploading' })`. -/
def initialStatus : UploadStatus :=
  { progress := 0, status := .uploading, message := none }

/-- The small-file branch of `handleUpload` (lines 57-73): one whole-file
`axios.post` with the client id; on success `setStatus` completed / progress
100 and `setUploadedDocId(res.data.id)`, on failure `setStatus` error with the
server detail (or the fallback text). -/
def handleUploadSmall (clientId : String) (wholeResp : TransferResult) : RunResult :=
  match wholeResp with
  | .ok d =>
    { requests := [.whole clientId]
      statuses := [initialStatus,
        { progress := 100, status := .completed, message := some "Upload complete!" }]
      uploadedDocId := some d }
  | .err detail =>
    { requests := [.whole clientId]
      statuses := [initialStatus,
        { progress := 0, status := .error
          message := some (detailOr detail "Upload failed.") }]
      uploadedDocId := none }

/-- The chunked branch of `handleUpload` (lines 74-104): the loop, then the
unconditional `setUploadedDocId(documentId)` (line 103) and
`setStatus({progress: 100, status: 'completed', ...})` (line 104). -/
def handleUploadLarge (f : File) (clientId : String)
    (oracle : Nat → TransferResult) : RunResult :=
  let total := totalChunksOf f.size CHUNK_SIZE
  let run := chunkLoop f.size f.name clientId total oracle total 0 ""
  { requests := run.1
    statuses := initialStatus :: run.2.1 ++
      [{ progress := 100, status := .completed, message := some "Upload complete!" }]
    uploadedDocId := some run.2.2 }

/-- `handleUpload` (lines 54-105). `file = none` models the `if (!file) return;`
guard; `wholeResp` is the outcome of the single whole-file call (consulted only
on the small-file path), `oracle i` the outcome of the chunked call for chunk
index `i`. The trace records every request issued and every `setStatus`
argument, in order, plus the final `setUploadedDocId` value. -/
def handleUpload (file : Option File) (clientId : String)
    (wholeResp : TransferResult) (oracle : Nat → TransferResult) : RunResult :=
  match file with
  | none => { requests := [], statuses := [], uploadedDocId := none }
  | some f =>
    if f.size ≤ CHUNK_SIZE then handleUploadSmall clientId wholeResp
    else handleUploadLarge f clientId oracle

/-- The component-local state touched by `handleFileChange`. -/
structure ComponentState : Type where
  file : Option File
  status : UploadStatus
  uploadedDocId : Option String
deriving DecidableEq, Repr

/-- `handleFileChange` (lines 46-52): with a nonempty `e.target.files` it
stores the first file, resets the status to idle and clears the stored
document id; otherwise it does nothing. -/
def handleFileChange (files : List File) (s : ComponentState) : ComponentState :=
  match files with
  | f :: _ =>
    { s with
        file := some f
        status := { progress := 0, status := .idle, message := none }
        uploadedDocId := none }
  | [] => s

/-- A message arriving on the WebSocket: `malformed` models a payload on which
`JSON.parse` throws (swallowed by the empty `catch`), `event` a parsed object
with its `event`, `document_id` and `filename` fields. -/
inductive WsMessage : Type
  | malformed
  | event (ev document_id filename : String)
deriving DecidableEq, Repr

/-- `socket.onmessage` (lines 32-41) acting on the `processingMsg` state and the
current `UploadStatus`: when `data.event === 'processing_complete'` it sets the
processing message and `setStatus(s => ({...s, status: 'completed', message:
'Processing complete!'}))` — with no comparison of `data.document_id` against
the session's stored identifier; every other message leaves both unchanged. -/
def onmessage (m : WsMessage) (processingMsg : Option String) (s : UploadStatus) :
    Option String × UploadStatus :=
  match m with
  | .malformed => (processingMsg, s)
  | .event ev docId fn =>
    if ev = "processing_complete" then
      (some s!"Document \"{fn}\" (ID: {docId}) has finished processing and is ready!",
       { s with status := .completed, message := some "Processing complete!" })
    else (processingMsg, s)

/-- The value of the loop variable `documentId` just before chunk `i` is sent,
as a function of the response oracle: initially `""`, and after response `j`
it becomes the returned identifier when that is non-empty, else is kept
(line 93, `documentId = res.data.document_id || documentId`). -/
def docAt (oracle : Nat → TransferResult) : Nat → String
  | 0 => ""
  | j + 1 =>
    match oracle j with
    | .ok d => if d = "" then docAt oracle j else d
    | .err _ => docAt oracle j

/-- Helper projection: the `document_id` form field of a request (`""` for the
whole-file request, which has no such field). -/
def reqDocId : Request → String
  | .whole _ => ""
  | .chunk c => c.document_id

/-- Helper projection: the `chunk_index` form field of a request. -/
def reqIndex : Request → Nat
  | .whole _ => 0
  | .chunk c => c.chunk_index

/-- `docAt` generalized to start folding at index `i` from an arbitrary value
`d` of the `documentId` loop variable, for `m` responses. -/
def docFrom (oracle : Nat → TransferResult) : Nat → String → Nat → String
  | _, d, 0 => d
  | i, d, m + 1 =>
    docFrom oracle (i + 1)
      (match oracle i with
       | .ok d2 => if d2 = "" then d else d2
       | .err _ => d) m

lemma docFrom_docAt (oracle : Nat → TransferResult) :
    ∀ (m i : Nat), docFrom oracle i (docAt oracle i) m = docAt oracle (i + m) := by
  intro m
  induction m with
  | zero => intro i; simp [docFrom]
  | succ m ih =>
    intro i
    have hstep : docAt oracle (i + 1 + m) = docAt oracle (i + (m + 1)) := by
      congr 1
      omega
    have hnext : docAt oracle (i + 1) =
        match oracle i with
        | TransferResult.ok d2 => if d2 = "" then docAt oracle i else d2
        | TransferResult.err _ => docAt oracle i := rfl
    cases h : oracle i with
    | ok d =>
      have h1 : docFrom oracle i (docAt oracle i) (m + 1) =
          docFrom oracle (i + 1) (if d = "" then docAt oracle i else d) m := by
        simp only [docFrom, h]
      have h2 : (if d = "" then docAt oracle i else d) = docAt oracle (i + 1) := by
        rw [hnext, h]
      rw [h1, h2, ih (i + 1), hstep]
    | err d =>
      have h1 : docFrom oracle i (docAt oracle i) (m + 1) =
          docFrom oracle (i + 1) (docAt oracle i) m := by
        simp only [docFrom, h]
      have h2 : docAt oracle i = docAt oracle (i + 1) := by
        rw [hnext, h]
      rw [h1, h2, ih (i + 1), hstep]

/-- If every response with index in `[i, i + fuel)` is a success, the loop
performs all `fuel` remaining iterations, issuing one request each. -/
lemma chunkLoop_length (size : Nat) (name cid : String) (total : Nat)
    (oracle : Nat → TransferResult) :
    ∀ (fuel i : Nat) (docId : String),
      (∀ j, i ≤ j → j < i + fuel → ∃ d, oracle j = .ok d) →
      (chunkLoop size name cid total oracle fuel i docId).1.length = fuel := by
  intro fuel
  induction fuel with
  | zero => intro i docId _; rfl
  | succ fuel ih =>
    intro i docId hok
    obtain ⟨d, hd⟩ := hok i (le_refl i) (by omega)
    simp only [chunkLoop, hd, List.length_cons]
    rw [ih (i + 1) _ (fun j h1 h2 => hok j (by omega) (by omega))]

/-- Characterization of the `m`-th request issued by the remaining loop
iterations, provided the `m` responses before it succeed (the request itself
is issued regardless of its own response). -/
lemma chunkLoop_getElem? (size : Nat) (name cid : String) (total : Nat)
    (oracle : Nat → TransferResult) :
    ∀ (m fuel i : Nat) (docId : String), m < fuel →
      (∀ j, i ≤ j → j < i + m → ∃ d, oracle j = .ok d) →
      (chunkLoop size name cid total oracle fuel i docId).1[m]? =
        some (.chunk
          { start := (i + m) * CHUNK_SIZE
            stop := min ((i + m) * CHUNK_SIZE + CHUNK_SIZE) size
            document_id :=
              if docFrom oracle i docId m = "" then "new" else docFrom oracle i docId m
            chunk_index := i + m
            total_chunks := total
            filename := name
            client_id := if i + m = 0 then some cid else none }) := by
  intro m
  induction m with
  | zero =>
    intro fuel i docId hm _
    obtain ⟨fuel, rfl⟩ : ∃ f, fuel = f + 1 := ⟨fuel - 1, by omega⟩
    cases h : oracle i <;> simp [chunkLoop, h, docFrom]
  | succ m ih =>
    intro fuel i docId hm hok
    obtain ⟨fuel, rfl⟩ : ∃ f, fuel = f + 1 := ⟨fuel - 1, by omega⟩
    obtain ⟨d, hd⟩ := hok i (le_refl i) (by omega)
    have step : docFrom oracle i docId (m + 1) =
        docFrom oracle (i + 1) (if d = "" then docId else d) m := by
      show docFrom oracle (i + 1) _ m = _
      congr 1
      simp [hd]
    have harith : i + (m + 1) = (i + 1) + m := by omega
    simp only [chunkLoop, hd, List.getElem?_cons_succ]
    rw [step, harith]
    exact ih fuel (i + 1) _ (by omega) (fun j h1 h2 => hok j (by omega) (by omega))

/-- Unfolding of `handleUpload` on the chunked (large-file) branch. -/
lemma handleUpload_chunked (f : File) (cid : String)
    (wresp : TransferResult) (oracle : Nat → TransferResult)
    (hsize : CHUNK_SIZE < f.size) :
    handleUpload (some f) cid wresp oracle = handleUploadLarge f cid oracle := by
  have h : handleUpload (some f) cid wresp oracle =
      if f.size ≤ CHUNK_SIZE then handleUploadSmall cid wresp
      else handleUploadLarge f cid oracle := rfl
  rw [h, if_neg (Nat.not_le.mpr hsize)]

/-- Unfolding of the chunked branch into its components. -/
lemma handleUploadLarge_eq (f : File) (cid : String)
    (oracle : Nat → TransferResult) :
    handleUploadLarge f cid oracle =
      { requests :=
          (chunkLoop f.size f.name cid (totalChunksOf f.size CHUNK_SIZE) oracle
            (totalChunksOf f.size CHUNK_SIZE) 0 "").1
        statuses :=
          initialStatus ::
            (chunkLoop f.size f.name cid (totalChunksOf f.size CHUNK_SIZE) oracle
              (totalChunksOf f.size CHUNK_SIZE) 0 "").2.1 ++
            [{ progress := 100, status := .completed, message := some "Upload complete!" }]
        uploadedDocId :=
          some (chunkLoop f.size f.name cid (totalChunksOf f.size CHUNK_SIZE) oracle
            (totalChunksOf f.size CHUNK_SIZE) 0 "").2.2 } := rfl

/-- Projection of an explicit `RunResult` literal, kept as a rewrite rule so
instantiated goals never rely on definitional unfolding. -/
lemma requests_mk (A : List Request) (B : List UploadStatus)
    (C : Option String) : (RunResult.mk A B C).requests = A := rfl

/-- The requests issued on the chunked branch are exactly the loop's. -/
lemma handleUploadLarge_requests (f : File) (cid : String)
    (oracle : Nat → TransferResult) :
    (handleUploadLarge f cid oracle).requests =
      (chunkLoop f.size f.name cid (totalChunksOf f.size CHUNK_SIZE) oracle
        (totalChunksOf f.size CHUNK_SIZE) 0 "").1 := by
  rw [handleUploadLarge_eq, requests_mk]

lemma totalChunksOf_pos {size : Nat} (h : CHUNK_SIZE < size) :
    0 < totalChunksOf size CHUNK_SIZE := by
  simp only [totalChunksOf, CHUNK_SIZE] at *
  omega

/-- Once some response `j < i` has supplied a non-empty identifier, the loop
variable `documentId` is non-empty before chunk `i`. -/
lemma docAt_ne_of_ok (oracle : Nat → TransferResult) {j : Nat} {d : String}
    (hjok : oracle j = .ok d) (hd : d ≠ "") :
    ∀ i, j < i → docAt oracle i ≠ "" := by
  intro i
  induction i with
  | zero => omega
  | succ i ih =>
    intro hji
    rcases Nat.lt_succ_iff_lt_or_eq.mp hji with hlt | rfl
    · have hne := ih hlt
      simp only [docAt]
      cases h : oracle i with
      | ok d2 =>
        by_cases h2 : d2 = "" <;> simp [h2, hne]
      | err _ => exact hne
    · simp only [docAt, hjok]
      simp [hd]

/-- A non-empty `documentId` loop value always originates from some earlier
successful response that returned exactly that identifier. -/
lemma docAt_mem_ok (oracle : Nat → TransferResult) :
    ∀ i, docAt oracle i ≠ "" →
      ∃ j, j < i ∧ oracle j = .ok (docAt oracle i) := by
  intro i
  induction i with
  | zero => intro h; simp [docAt] at h
  | succ i ih =>
    intro h
    cases ho : oracle i with
    | ok d =>
      by_cases hd : d = ""
      · have he : docAt oracle (i + 1) = docAt oracle i := by
          simp [docAt, ho, hd]
        rw [he] at h ⊢
        obtain ⟨j, hj, hjo⟩ := ih h
        exact ⟨j, by omega, hjo⟩
      · have he : docAt oracle (i + 1) = d := by
          simp [docAt, ho, hd]
        rw [he]
        exact ⟨i, by omega, ho⟩
    | err d =>
      have he : docAt oracle (i + 1) = docAt oracle i := by
        simp [docAt, ho]
      rw [he] at h ⊢
      obtain ⟨j, hj, hjo⟩ := ih h
      exact ⟨j, by omega, hjo⟩

/-- `totalChunksOf` as one plus a floor division, for positive inputs. -/
lemma totalChunksOf_eq {S C : Nat} (hS : 0 < S) (hC : 0 < C) :
    totalChunksOf S C = (S - 1) / C + 1 := by
  simp only [totalChunksOf]
  have h : S + C - 1 = (S - 1) + C := by omega
  rw [h, Nat.add_div_right _ hC]

lemma split_length (S C : Nat) : (split S C).length = totalChunksOf S C := by
  simp [split]

/-- The `m`-th byte range produced by the splitting computation. -/
lemma split_getElem? {S C m : Nat} (hm : m < totalChunksOf S C) :
    (split S C)[m]? = some (m * C, min (m * C + C) S) := by
  simp [split, List.getElem?_map, List.getElem?_range hm]

/-- Every index below the chunk count starts its range strictly inside the
file. -/
lemma mul_lt_of_lt_totalChunks {S C m : Nat} (hS : 0 < S) (hC : 0 < C)
    (hm : m < totalChunksOf S C) : m * C ≤ S - 1 := by
  rw [totalChunksOf_eq hS hC] at hm
  have h1 : m ≤ (S - 1) / C := by omega
  calc m * C ≤ (S - 1) / C * C := Nat.mul_le_mul_right C h1
    _ ≤ S - 1 := Nat.div_mul_le_self _ _

/-- C7: for all `totalSize > 0` and `chunkSize > 0`, the chunk splitting
computation yields exactly `ceil(totalSize/chunkSize)` ranges `(start, end)`
that are nonempty with `end - start ≤ chunkSize`, start at offset `0`, are
contiguous, and cover each byte offset `x < totalSize` exactly once
(exhaustive and non-overlapping). `split` is a plain function of its two
arguments, so the sequence is deterministic and recomputable. -/
theorem C7_split_correct (S C : Nat) (hS : 0 < S) (hC : 0 < C) :
    (split S C).length = totalChunksOf S C ∧
    (∀ p ∈ split S C, p.1 < p.2 ∧ p.2 - p.1 ≤ C) ∧
    (split S C)[0]? = some (0, min C S) ∧
    (∀ m, m + 1 < (split S C).length →
      ∃ p q, (split S C)[m]? = some p ∧ (split S C)[m + 1]? = some q ∧ p.2 = q.1) ∧
    (∀ x, x < S → ∃ (m : Nat) (p : Nat × Nat),
      (split S C)[m]? = some p ∧ p.1 ≤ x ∧ x < p.2 ∧
      ∀ (n : Nat) (q : Nat × Nat),
        (split S C)[n]? = some q → q.1 ≤ x → x < q.2 → n = m) := by
  refine ⟨split_length S C, ?_, ?_, ?_, ?_⟩
  · intro p hp
    simp only [split, List.mem_map, List.mem_range] at hp
    obtain ⟨m, hm, rfl⟩ := hp
    have h1 := mul_lt_of_lt_totalChunks hS hC hm
    simp only
    omega
  · have h0 : (0 : Nat) < totalChunksOf S C := by
      rw [totalChunksOf_eq hS hC]
      exact Nat.succ_pos _
    have h := split_getElem? (S := S) (C := C) h0
    simpa using h
  · intro m hm
    rw [split_length] at hm
    have hm1 : m < totalChunksOf S C := by omega
    refine ⟨_, _, split_getElem? hm1, split_getElem? hm, ?_⟩
    have h1 := mul_lt_of_lt_totalChunks hS hC hm
    have h2 : (m + 1) * C = m * C + C := by ring
    simp only [h2] at h1 ⊢
    omega
  · intro x hx
    have hmlt : x / C < totalChunksOf S C := by
      rw [totalChunksOf_eq hS hC]
      exact Nat.lt_succ_of_le
        (Nat.div_le_div_right (c := C) (show x ≤ S - 1 by omega))
    refine ⟨x / C, _, split_getElem? hmlt, Nat.div_mul_le_self x C, ?_, ?_⟩
    · have hdm := Nat.div_add_mod x C
      have hmod : x % C < C := Nat.mod_lt x hC
      have hcomm : C * (x / C) = x / C * C := Nat.mul_comm _ _
      simp only
      omega
    · intro n q hq hq1 hq2
      have hnlen : n < (split S C).length := by
        rcases List.getElem?_eq_some.mp hq with ⟨h, _⟩
        exact h
      rw [split_length] at hnlen
      have hqeq := split_getElem? hnlen
      rw [hq] at hqeq
      obtain rfl : q = (n * C, min (n * C + C) S) := Option.some_inj.mp hqeq
      have hlt : x < (n + 1) * C := by
        have h2 : (n + 1) * C = n * C + C := by ring
        simp only at hq2
        omega
      exact (Nat.div_eq_of_lt_le hq1 hlt).symm

/-- C7 witness: the splitting theorem applied at totalSize 12, chunkSize 5. -/
theorem C7_witness :
    (split 12 5).length = totalChunksOf 12 5 ∧
    (∀ p ∈ split 12 5, p.1 < p.2 ∧ p.2 - p.1 ≤ 5) ∧
    (split 12 5)[0]? = some (0, min 5 12) ∧
    (∀ m, m + 1 < (split 12 5).length →
      ∃ p q, (split 12 5)[m]? = some p ∧ (split 12 5)[m + 1]? = some q ∧
        p.2 = q.1) ∧
    (∀ x, x < 12 → ∃ (m : Nat) (p : Nat × Nat),
      (split 12 5)[m]? = some p ∧ p.1 ≤ x ∧ x < p.2 ∧
      ∀ (n : Nat) (q : Nat × Nat),
        (split 12 5)[n]? = some q → q.1 ≤ x → x < q.2 → n = m) :=
  C7_split_correct 12 5 (by decide) (by decide)

/-- C6: for every file of size > `CHUNK_SIZE` whose chunk calls all succeed,
`handleUpload` issues exactly `ceil(size/CHUNK_SIZE)` chunk calls,
sequentially in index order (the request at list position `m` carries chunk
index `m`), each carrying the byte range, the chunk index, the total chunk
count and the filename; the client id is attached exactly on chunk 0, and the
first call carries the sentinel document identifier `"new"`. -/
theorem C6_sequential_chunk_calls (f : File) (cid : String)
    (wresp : TransferResult) (oracle : Nat → TransferResult)
    (hsize : CHUNK_SIZE < f.size)
    (hok : ∀ k, k < totalChunksOf f.size CHUNK_SIZE → ∃ d, oracle k = .ok d) :
    (handleUpload (some f) cid wresp oracle).requests.length =
      totalChunksOf f.size CHUNK_SIZE ∧
    (∀ m, m < totalChunksOf f.size CHUNK_SIZE → ∃ dm,
      (handleUpload (some f) cid wresp oracle).requests[m]? =
        some (.chunk
          { start := m * CHUNK_SIZE
            stop := min (m * CHUNK_SIZE + CHUNK_SIZE) f.size
            document_id := dm
            chunk_index := m
            total_chunks := totalChunksOf f.size CHUNK_SIZE
            filename := f.name
            client_id := if m = 0 then some cid else none })) ∧
    (∃ c0, (handleUpload (some f) cid wresp oracle).requests[0]? =
      some (.chunk c0) ∧ c0.document_id = "new" ∧ c0.client_id = some cid) := by
  have hreq : (handleUpload (some f) cid wresp oracle).requests =
      (chunkLoop f.size f.name cid (totalChunksOf f.size CHUNK_SIZE) oracle
        (totalChunksOf f.size CHUNK_SIZE) 0 "").1 := by
    rw [handleUpload_chunked f cid wresp oracle hsize]
    exact handleUploadLarge_requests f cid oracle
  rw [hreq]
  refine ⟨?_, ?_, ?_⟩
  · exact chunkLoop_length f.size f.name cid (totalChunksOf f.size CHUNK_SIZE)
      oracle (totalChunksOf f.size CHUNK_SIZE) 0 ""
      (fun j h1 h2 => hok j (by omega))
  · intro m hm
    have h := chunkLoop_getElem? f.size f.name cid (totalChunksOf f.size CHUNK_SIZE)
      oracle m (totalChunksOf f.size CHUNK_SIZE) 0 "" hm
      (fun j h1 h2 => hok j (by omega))
    rw [Nat.zero_add] at h
    exact ⟨_, h⟩
  · have h0 : 0 < totalChunksOf f.size CHUNK_SIZE := totalChunksOf_pos hsize
    have h := chunkLoop_getElem? f.size f.name cid (totalChunksOf f.size CHUNK_SIZE)
      oracle 0 (totalChunksOf f.size CHUNK_SIZE) 0 "" h0
      (fun j h1 h2 => absurd h2 (by omega))
    refine ⟨_, h, by simp [docFrom], by simp⟩

/-- C6 witness: the theorem applied to a concrete 12 MiB upload whose chunk
calls all return identifier `"x"`. -/
theorem C6_witness :
    (handleUpload (some ⟨12582912, "big.pdf"⟩) "cid" (.ok "")
      (fun _ => .ok "x")).requests.length =
      totalChunksOf (File.mk 12582912 "big.pdf").size CHUNK_SIZE := by
  have h := C6_sequential_chunk_calls ⟨12582912, "big.pdf"⟩ "cid" (.ok "")
    (fun _ => .ok "x") (by decide) (fun k _ => ⟨"x", rfl⟩)
  exact h.1

/-- C8 amended: on each chunk success the coordinator adopts the identifier
returned by the server whenever that identifier is non-empty — overwriting any
previously adopted identifier, not only when the local one is unassigned —
and keeps the current one when the response's identifier is empty or absent.
Consequently chunk request `i` carries `docAt oracle i`, the most recently
returned non-empty identifier among responses `0..i-1` (the sentinel `"new"`
when there is none yet); it equals the first server-confirmed identifier only
when no later response returned a different non-empty one. -/
theorem C8_adoption_overwrites (f : File) (cid : String)
    (wresp : TransferResult) (oracle : Nat → TransferResult) (i : Nat)
    (hsize : CHUNK_SIZE < f.size)
    (hi : i < totalChunksOf f.size CHUNK_SIZE)
    (hok : ∀ k, k < i → ∃ d, oracle k = .ok d) :
    (handleUpload (some f) cid wresp oracle).requests[i]? =
      some (.chunk
        { start := i * CHUNK_SIZE
          stop := min (i * CHUNK_SIZE + CHUNK_SIZE) f.size
          document_id := if docAt oracle i = "" then "new" else docAt oracle i
          chunk_index := i
          total_chunks := totalChunksOf f.size CHUNK_SIZE
          filename := f.name
          client_id := if i = 0 then some cid else none }) := by
  have hreq : (handleUpload (some f) cid wresp oracle).requests =
      (chunkLoop f.size f.name cid (totalChunksOf f.size CHUNK_SIZE) oracle
        (totalChunksOf f.size CHUNK_SIZE) 0 "").1 := by
    rw [handleUpload_chunked f cid wresp oracle hsize]
    exact handleUploadLarge_requests f cid oracle
  rw [hreq]
  have h := chunkLoop_getElem? f.size f.name cid (totalChunksOf f.size CHUNK_SIZE)
    oracle i (totalChunksOf f.size CHUNK_SIZE) 0 "" hi
    (fun k h1 h2 => hok k (by omega))
  rw [Nat.zero_add] at h
  have hdoc : docFrom oracle 0 "" i = docAt oracle i := by
    have h2 := docFrom_docAt oracle i 0
    simpa [docAt] using h2
  rw [hdoc] at h
  exact h

/-- C8 counterexample: with server responses returning identifier `"a"` for
chunk 0 and a different identifier `"b"` for chunk 1, the third chunk request
carries `"b"` — not the first server-confirmed identifier `"a"` as the claim
requires, because line 93 overwrites the already-assigned local identifier. -/
theorem C8_counterexample :
    (handleUpload (some ⟨12582912, "big.pdf"⟩) "cid" (.ok "")
        (fun n => if n = 0 then .ok "a"
          else if n = 1 then .ok "b" else .ok "")).requests.map reqDocId =
      ["new", "a", "b"] ∧
    ("b" : String) ≠ "a" := by decide

/-- C8 witness: the amended theorem applied to the same concrete run, at
chunk index 2. -/
theorem C8_witness :
    (handleUpload (some ⟨12582912, "big.pdf"⟩) "cid" (.ok "")
        (fun n => if n = 0 then .ok "a"
          else if n = 1 then .ok "b" else .ok "")).requests[2]? =
      some (.chunk
        { start := 2 * CHUNK_SIZE
          stop := min (2 * CHUNK_SIZE + CHUNK_SIZE) (File.mk 12582912 "big.pdf").size
          document_id :=
            if docAt (fun n => if n = 0 then .ok "a"
                else if n = 1 then .ok "b" else .ok "") 2 = "" then "new"
            else docAt (fun n => if n = 0 then .ok "a"
                else if n = 1 then .ok "b" else .ok "") 2
          chunk_index := 2
          total_chunks := totalChunksOf (File.mk 12582912 "big.pdf").size CHUNK_SIZE
          filename := (File.mk 12582912 "big.pdf").name
          client_id := if 2 = 0 then some "cid" else none }) := by
  exact C8_adoption_overwrites ⟨12582912, "big.pdf"⟩ "cid" (.ok "")
    (fun n => if n = 0 then .ok "a" else if n = 1 then .ok "b" else .ok "") 2
    (by decide) (by decide)
    (fun k hk => by
      by_cases h0 : k = 0
      · exact ⟨"a", by simp [h0]⟩
      · by_cases h1 : k = 1
        · exact ⟨"b", by simp [h0, h1]⟩
        · exact ⟨"", by simp [h0, h1]⟩)

/-- C10: during a chunked upload, once any response has supplied a non-empty
document identifier, the stored identifier stays non-empty (it is never
cleared back to unassigned, even by later responses omitting the field), it
always equals an identifier supplied by some earlier successful response, and
every later chunk request carries that stored server-supplied identifier —
the sentinel branch producing `"new"` is no longer taken. -/
theorem C10_docid_never_reverts (f : File) (cid : String)
    (wresp : TransferResult) (oracle : Nat → TransferResult) (i j : Nat)
    (d : String)
    (hsize : CHUNK_SIZE < f.size)
    (hi : i < totalChunksOf f.size CHUNK_SIZE)
    (hok : ∀ k, k < i → ∃ dk, oracle k = .ok dk)
    (hj : j < i) (hjok : oracle j = .ok d) (hd : d ≠ "") :
    docAt oracle i ≠ "" ∧
    (∃ j2, j2 < i ∧ oracle j2 = .ok (docAt oracle i)) ∧
    (handleUpload (some f) cid wresp oracle).requests[i]? =
      some (.chunk
        { start := i * CHUNK_SIZE
          stop := min (i * CHUNK_SIZE + CHUNK_SIZE) f.size
          document_id := docAt oracle i
          chunk_index := i
          total_chunks := totalChunksOf f.size CHUNK_SIZE
          filename := f.name
          client_id := none }) := by
  have hne : docAt oracle i ≠ "" := docAt_ne_of_ok oracle hjok hd i hj
  refine ⟨hne, docAt_mem_ok oracle i hne, ?_⟩
  have hreq : (handleUpload (some f) cid wresp oracle).requests =
      (chunkLoop f.size f.name cid (totalChunksOf f.size CHUNK_SIZE) oracle
        (totalChunksOf f.size CHUNK_SIZE) 0 "").1 := by
    rw [handleUpload_chunked f cid wresp oracle hsize]
    exact handleUploadLarge_requests f cid oracle
  rw [hreq]
  have h := chunkLoop_getElem? f.size f.name cid (totalChunksOf f.size CHUNK_SIZE)
    oracle i (totalChunksOf f.size CHUNK_SIZE) 0 "" hi
    (fun k h1 h2 => hok k (by omega))
  rw [Nat.zero_add] at h
  have hdoc : docFrom oracle 0 "" i = docAt oracle i := by
    have h2 := docFrom_docAt oracle i 0
    simpa [docAt] using h2
  rw [hdoc, if_neg hne, if_neg (show ¬ i = 0 by omega)] at h
  exact h

/-- C10 witness: the theorem applied to the concrete run whose chunk-0
response supplies `"a"` and whose chunk-1 response supplies `"b"`, at chunk
index 2 with provenance witness `j = 1`. -/
theorem C10_witness :
    docAt (fun n => if n = 0 then .ok "a"
        else if n = 1 then .ok "b" else .ok "") 2 ≠ "" ∧
    (∃ j2, j2 < 2 ∧
      (fun n => if n = 0 then TransferResult.ok "a"
        else if n = 1 then .ok "b" else .ok "") j2 =
        .ok (docAt (fun n => if n = 0 then .ok "a"
          else if n = 1 then .ok "b" else .ok "") 2)) ∧
    (handleUpload (some ⟨12582912, "big.pdf"⟩) "cid" (.ok "")
        (fun n => if n = 0 then .ok "a"
          else if n = 1 then .ok "b" else .ok "")).requests[2]? =
      some (.chunk
        { start := 2 * CHUNK_SIZE
          stop := min (2 * CHUNK_SIZE + CHUNK_SIZE) (File.mk 12582912 "big.pdf").size
          document_id := docAt (fun n => if n = 0 then .ok "a"
            else if n = 1 then .ok "b" else .ok "") 2
          chunk_index := 2
          total_chunks := totalChunksOf (File.mk 12582912 "big.pdf").size CHUNK_SIZE
          filename := (File.mk 12582912 "big.pdf").name
          client_id := none }) := by
  exact C10_docid_never_reverts ⟨12582912, "big.pdf"⟩ "cid" (.ok "")
    (fun n => if n = 0 then .ok "a" else if n = 1 then .ok "b" else .ok "") 2 1 "b"
    (by decide) (by decide)
    (fun k hk => by
      by_cases h0 : k = 0
      · exact ⟨"a", by simp [h0]⟩
      · by_cases h1 : k = 1
        · exact ⟨"b", by simp [h0, h1]⟩
        · exact ⟨"", by simp [h0, h1]⟩)
    (by decide) (by decide) (by decide)

/-- C1: the claim fails on the code. In a 3-chunk upload whose chunk calls all
succeed and with NO `processing_complete` event ever delivered, `handleUpload`
itself ends by setting status `completed` (progress 100, "Upload complete!"):
the `assembling` status set after the last chunk is immediately overwritten by
the unconditional `setStatus` after the loop (line 104), so `Completed` is
reached upon the last chunk's HTTP success alone. -/
theorem C1_completed_without_event :
    (handleUpload (some ⟨12582912, "big.pdf"⟩) "cid" (.ok "")
        (fun _ => .ok "doc-1")).statuses =
      [{ progress := 0, status := .uploading, message := none },
       { progress := 33, status := .uploading, message := some "Chunk 1 uploaded" },
       { progress := 67, status := .uploading, message := some "Chunk 2 uploaded" },
       { progress := 100, status := .uploading, message := some "Chunk 3 uploaded" },
       { progress := 100, status := .assembling,
         message := some "Assembling and processing..." },
       { progress := 100, status := .completed,
         message := some "Upload complete!" }] := by decide

/-- C2 counterexample: after a chunked upload stored document id `"doc-1"`, a
`processing_complete` event for the different document `"other-doc"` still
changes the session's status to `completed` and replaces its message — the
handler never compares `data.document_id` with the stored identifier, so the
event is not discarded and the state does not stay unchanged. -/
theorem C2_counterexample :
    (handleUpload (some ⟨12582912, "big.pdf"⟩) "cid" (.ok "")
        (fun _ => .ok "doc-1")).uploadedDocId = some "doc-1" ∧
    ("other-doc" : String) ≠ "doc-1" ∧
    onmessage (.event "processing_complete" "other-doc" "f2.pdf") none
        { progress := 100, status := .assembling,
          message := some "Assembling and processing..." } =
      (some "Document \"f2.pdf\" (ID: other-doc) has finished processing and is ready!",
       { progress := 100, status := .completed,
         message := some "Processing complete!" }) ∧
    ({ progress := 100, status := St.completed,
       message := some "Processing complete!" } : UploadStatus) ≠
      { progress := 100, status := .assembling,
        message := some "Assembling and processing..." } := by decide

/-- C2 amended: every well-formed message whose `event` field equals
`processing_complete` — regardless of its document identifier — sets the
session's status to `completed` and its message to "Processing complete!",
leaving only the progress field unchanged; malformed messages and messages
with any other `event` value are discarded silently with state unchanged. -/
theorem C2_all_complete_events_transition (pm : Option String)
    (s : UploadStatus) (docId fn : String) :
    onmessage (.event "processing_complete" docId fn) pm s =
      (some s!"Document \"{fn}\" (ID: {docId}) has finished processing and is ready!",
       { s with status := .completed, message := some "Processing complete!" }) ∧
    (onmessage (.event "processing_complete" docId fn) pm s).2.progress =
      s.progress ∧
    onmessage .malformed pm s = (pm, s) ∧
    (∀ ev, ev ≠ "processing_complete" →
      onmessage (.event ev docId fn) pm s = (pm, s)) := by
  refine ⟨rfl, rfl, rfl, ?_⟩
  intro ev hev
  simp [onmessage, hev]

/-- C2 amended witness: the amended theorem at a concrete status record, a
concrete document identifier, and the non-matching event name `other_event`. -/
theorem C2_witness :
    onmessage (.event "processing_complete" "any-doc" "w.pdf") none
        { progress := 42, status := .uploading, message := none } =
      (some "Document \"w.pdf\" (ID: any-doc) has finished processing and is ready!",
       { progress := 42, status := .completed,
         message := some "Processing complete!" }) ∧
    onmessage (.event "other_event" "any-doc" "w.pdf") none
        { progress := 42, status := .uploading, message := none } =
      (none, { progress := 42, status := .uploading, message := none }) := by
  have h := C2_all_complete_events_transition none
    { progress := 42, status := .uploading, message := none } "any-doc" "w.pdf"
  exact ⟨h.1, h.2.2.2 "other_event" (by decide)⟩

/-- C3: the claim fails on the code. With chunk index 1 of 3 failing
("boom"), no chunk after index 1 is sent (requests carry indices 0 and 1
only) — that part holds — but the catch handler records progress 67 =
round(2/3*100), counting the failed chunk instead of the 1 completed chunk,
and the unconditional post-loop `setStatus` then overwrites the error state,
so the run's final state is `completed` with progress 100 and message
"Upload complete!", not `error`. -/
theorem C3_failure_clobbered_by_completed :
    (handleUpload (some ⟨12582912, "big.pdf"⟩) "cid" (.ok "")
        (fun n => if n = 0 then .ok "d0" else .err "boom")).requests.map reqIndex =
      [0, 1] ∧
    (handleUpload (some ⟨12582912, "big.pdf"⟩) "cid" (.ok "")
        (fun n => if n = 0 then .ok "d0" else .err "boom")).statuses =
      [{ progress := 0, status := .uploading, message := none },
       { progress := 33, status := .uploading, message := some "Chunk 1 uploaded" },
       { progress := 67, status := .error, message := some "boom" },
       { progress := 100, status := .completed,
         message := some "Upload complete!" }] := by decide

/-- C4 counterexample: for a 3 MiB file (below the 5 MiB chunk size) the run
does visit the `uploading` (Transferring) state — line 56 sets it
unconditionally before the whole-file call — contradicting the claim that
`Completed` is reached without the session ever being in Transferring. -/
theorem C4_counterexample :
    (handleUpload (some ⟨3145728, "small.pdf"⟩) "cid" (.ok "doc-s")
        (fun _ => .ok "")).statuses =
      [{ progress := 0, status := .uploading, message := none },
       { progress := 100, status := .completed,
         message := some "Upload complete!" }] ∧
    ({ progress := 0, status := St.uploading, message := none } : UploadStatus) ∈
      (handleUpload (some ⟨3145728, "small.pdf"⟩) "cid" (.ok "doc-s")
        (fun _ => .ok "")).statuses := by decide

/-- C4 amended: for every file of size ≤ chunkSize, `handleUpload` issues
exactly one whole-file transfer call and, on success, reaches `Completed`
with progress 100 and the returned identifier stored; the session is set to
the Transferring (`uploading`) state once, before the call, and never enters
`Assembling`. -/
theorem C4_small_file_direct (f : File) (cid d : String)
    (oracle : Nat → TransferResult) (h : f.size ≤ CHUNK_SIZE) :
    handleUpload (some f) cid (.ok d) oracle =
      { requests := [.whole cid]
        statuses := [initialStatus,
          { progress := 100, status := .completed,
            message := some "Upload complete!" }]
        uploadedDocId := some d } ∧
    ∀ st ∈ (handleUpload (some f) cid (.ok d) oracle).statuses,
      st.status ≠ St.assembling := by
  have hh : handleUpload (some f) cid (.ok d) oracle =
      if f.size ≤ CHUNK_SIZE then handleUploadSmall cid (.ok d)
      else handleUploadLarge f cid oracle := rfl
  rw [hh, if_pos h]
  refine ⟨rfl, ?_⟩
  intro st hst
  simp only [handleUploadSmall, initialStatus, List.mem_cons,
    List.not_mem_nil, or_false] at hst
  rcases hst with rfl | rfl <;> decide

/-- C4 amended witness: the amended theorem at a concrete 3 MiB file. -/
theorem C4_witness :
    handleUpload (some ⟨3145728, "small.pdf"⟩) "cid" (.ok "doc-s")
        (fun _ => .ok "") =
      { requests := [.whole "cid"]
        statuses := [initialStatus,
          { progress := 100, status := .completed,
            message := some "Upload complete!" }]
        uploadedDocId := some "doc-s" } := by
  have h := C4_small_file_direct ⟨3145728, "small.pdf"⟩ "cid" "doc-s"
    (fun _ => .ok "") (by decide)
  exact h.1

/-- C5 counterexample: for the 12 MiB / 5 MiB scenario the progress values
emitted after the three chunk successes are 33, 67, 100 — the claimed value
34 never occurs anywhere in the status trace, because
`Math.round((1/3)*100) = 33`. -/
theorem C5_counterexample :
    (handleUpload (some ⟨12582912, "big.pdf"⟩) "cid" (.ok "")
        (fun _ => .ok "doc-12")).statuses.map (fun s => s.progress) =
      [0, 33, 67, 100, 100, 100] ∧
    34 ∉ (handleUpload (some ⟨12582912, "big.pdf"⟩) "cid" (.ok "")
        (fun _ => .ok "doc-12")).statuses.map (fun s => s.progress) := by decide

/-- C5 amended: a 12 MiB file with 5 MiB chunk size is split into exactly 3
chunks of 5, 5 and 2 MiB; the progress values after the three chunk
successes are 33, 67 and 100; the status after the third chunk's success is
`assembling` with progress 100 — but `handleUpload` then unconditionally sets
`completed` when the loop ends, without waiting for any `processing_complete`
event. -/
theorem C5_scenario_actual :
    (handleUpload (some ⟨12582912, "big.pdf"⟩) "cid" (.ok "")
        (fun _ => .ok "doc-12")).requests =
      [.chunk { start := 0, stop := 5242880, document_id := "new",
                chunk_index := 0, total_chunks := 3, filename := "big.pdf",
                client_id := some "cid" },
       .chunk { start := 5242880, stop := 10485760, document_id := "doc-12",
                chunk_index := 1, total_chunks := 3, filename := "big.pdf",
                client_id := none },
       .chunk { start := 10485760, stop := 12582912, document_id := "doc-12",
                chunk_index := 2, total_chunks := 3, filename := "big.pdf",
                client_id := none }] ∧
    (handleUpload (some ⟨12582912, "big.pdf"⟩) "cid" (.ok "")
        (fun _ => .ok "doc-12")).statuses =
      [{ progress := 0, status := .uploading, message := none },
       { progress := 33, status := .uploading, message := some "Chunk 1 uploaded" },
       { progress := 67, status := .uploading, message := some "Chunk 2 uploaded" },
       { progress := 100, status := .uploading, message := some "Chunk 3 uploaded" },
       { progress := 100, status := .assembling,
         message := some "Assembling and processing..." },
       { progress := 100, status := .completed,
         message := some "Upload complete!" }] := by decide

/-- C9 counterexample: with no file provided, `handleUpload` returns
immediately — it issues no request, emits no status update (in particular no
`error` status), and stores nothing — and `handleFileChange` with an empty
file list leaves the component state unchanged; neither operation fails with
any error as the claim requires. -/
theorem C9_counterexample :
    handleUpload none "cid" (.ok "d") (fun _ => .ok "") =
      { requests := [], statuses := [], uploadedDocId := none } ∧
    handleFileChange []
        { file := none,
          status := { progress := 0, status := .idle, message := none },
          uploadedDocId := none } =
      { file := none,
        status := { progress := 0, status := .idle, message := none },
        uploadedDocId := none } := by decide

/-- C9 amended: when no file is provided, the upload-start operation does
nothing at all — no transfer call, no status update, no stored identifier,
and no error of any kind — and the file-selection handler with an empty
selection leaves the component state untouched. -/
theorem C9_no_file_noop (cid : String) (wresp : TransferResult)
    (oracle : Nat → TransferResult) (s : ComponentState) :
    handleUpload none cid wresp oracle =
      { requests := [], statuses := [], uploadedDocId := none } ∧
    handleFileChange [] s = s :=
  ⟨rfl, rfl⟩

end UploadArea

